import Mathlib

/-
Verification of the portfolio mean-variance simulation module
(chapter10/portfolio_simulation.py) against its specification.

Modelling conventions:
* numpy float64 arithmetic is idealised as exact rational arithmetic (ℚ);
  division by zero in ℚ yields the junk value 0, which we use to make the
  unguarded zero-sum normalization observable.
* The randomness consumed by np.random.randint is made an explicit
  parameter: the draw matrix `ri` of natural numbers.  Its shape contract
  (N_SIMULATION_MEAN_VAR rows, one column per ticker, entries below 100)
  is the contract of the randint call in the source.
* The asset-provider collaborator holds a single mutable weights slot;
  its derived quantities are functions of the current weights.  The
  mutate-then-read loop is embedded as explicit state passing.
* Python exceptions are embedded as an `Except SimError` result; the
  distinct error constructors mirror the distinct exceptions the
  interpreter would raise (AttributeError on None, ValueError from tuple
  unpacking, ModuleNotFoundError, AttributeError from getattr, ValueError
  from a reduction over a zero-size array).
-/

namespace PortfolioSim

/-- One row of the result tables: the pair of columns
(Expected Return, Volatility). -/
structure MeanVarPoint where
  expected_return : ℚ
  volatility : ℚ
deriving DecidableEq, Repr

/-- The asset-provider collaborator.  `weights` is the current content of
its single mutable weights slot; `expected_return` and `volatility` are the
derived read-only quantities, functions of the weights they are read at. -/
structure PortfolioAssets where
  ticker_symbols : List String
  weights : List ℚ
  expected_return : List ℚ → ℚ
  volatility : List ℚ → ℚ

/-- The class constant `_N_SIMULATION_MEAN_VAR = 2000`. -/
def N_SIMULATION_MEAN_VAR : ℕ := 2000

/-- The class constant `_N_SIMULATION_EFFICIENT_FRONTIER = 100`. -/
def N_SIMULATION_EFFICIENT_FRONTIER : ℕ := 100

/-- The errors the module can raise, mirroring the Python exceptions. -/
inductive SimError where
  | attributeErrorNone
  | valueErrorUnpack
  | moduleNotFoundError (module_name : String)
  | attributeErrorGetattr (module_name class_name : String)
  | valueErrorEmptyReduction
deriving DecidableEq, Repr

/-- The per-row scalar `norm_factor = 1.0 / ri.sum(axis=1)` of
`_generate_random_asset_weight_distribution`. -/
def norm_factor (row : List ℕ) : ℚ :=
  1 / (row.sum : ℚ)

/-- Normalization of one sampled row: `(ri.T * norm_factor).T` multiplies
every entry of the row by that row's norm factor.  There is no branch on a
zero row sum. -/
def normalizeRow (row : List ℕ) : List ℚ :=
  row.map (fun (d : ℕ) => (d : ℚ) * norm_factor row)

/-- `_generate_random_asset_weight_distribution`, with the randint draw
matrix `ri` passed explicitly.  Each row is normalized by its own sum. -/
def generateRandomAssetWeightDistribution (ri : List (List ℕ)) : List (List ℚ) :=
  ri.map normalizeRow

/-- Shape contract of `np.random.randint(100, size=(_N_SIMULATION_MEAN_VAR,
len(ticker_symbols)))`: 2000 rows, one column per ticker, entries in
[0, 100). -/
def DrawsWF (ri : List (List ℕ)) (n_assets : ℕ) : Prop :=
  ri.length = N_SIMULATION_MEAN_VAR ∧
    ∀ row ∈ ri, row.length = n_assets ∧ ∀ d ∈ row, d < 100

/-- One iteration of the simulation loop: assign the row to the provider's
weights slot, then read `expected_return` and `volatility` at the newly
assigned weights, and append the point. -/
def simulateStep (p : PortfolioAssets) (st : List ℚ × List MeanVarPoint)
    (row : List ℚ) : List ℚ × List MeanVarPoint :=
  let assigned := row
  let means := p.expected_return assigned
  let var := p.volatility assigned
  (assigned, st.2 ++ [MeanVarPoint.mk means var])

/-- `_simulate_expected_return_volatility_distribution`: fold the loop body
over the weight batch, threading the provider's weights slot, starting from
the provider's initial weights and an empty table.  Returns the final slot
content and the accumulated table. -/
def simulateExpectedReturnVolatilityDistribution (p : PortfolioAssets)
    (weights_batch : List (List ℚ)) : List ℚ × List MeanVarPoint :=
  weights_batch.foldl (simulateStep p) (p.weights, [])

/-- `np.min` over a column: raises ValueError on a zero-size array,
otherwise folds `min` over the entries. -/
def npMin : List ℚ → Except SimError ℚ
  | [] => .error .valueErrorEmptyReduction
  | x :: xs => .ok (xs.foldl min x)

/-- `np.max` over a column: raises ValueError on a zero-size array,
otherwise folds `max` over the entries. -/
def npMax : List ℚ → Except SimError ℚ
  | [] => .error .valueErrorEmptyReduction
  | x :: xs => .ok (xs.foldl max x)

/-- The `Expected Return` column of a mean-variance table. -/
def colExpectedReturn (dist : List MeanVarPoint) : List ℚ :=
  dist.map (fun pt => pt.expected_return)

/-- `np.linspace a b n` with endpoint=True: the `n` values
`a + (b - a) * i / (n - 1)` for `i = 0, ..., n - 1`. -/
def linspace (a b : ℚ) (n : ℕ) : List ℚ :=
  (List.range n).map (fun (i : ℕ) => a + (b - a) * (i : ℚ) / ((n : ℚ) - 1))

/-- The `target_means_space` computation of `_compute_efficient_frontier_path`:
linspace between the min and max of the Expected Return column; the
reductions raise on an empty distribution. -/
def targetMeansSpace (dist : List MeanVarPoint) : Except SimError (List ℚ) :=
  match npMin (colExpectedReturn dist), npMax (colExpectedReturn dist) with
  | .ok mn, .ok mx => .ok (linspace mn mx N_SIMULATION_EFFICIENT_FRONTIER)
  | .error e, _ => .error e
  | _, .error e => .error e

/-- The loaded optimizer class, abstracted to its observable behaviour in
the sweep: instantiated at a target mean and fitted, it exposes
`optimal_variance`, a value or None. -/
def OptimizerClass : Type := ℚ → Option ℚ

/-- The body of the frontier loop: construct the optimizer at the target
mean, fit it, read `optimal_variance`; append the point when it is not
None, otherwise leave the table unchanged. -/
def frontierStep (optimizer_class : OptimizerClass)
    (acc : List MeanVarPoint) (target_mean : ℚ) : List MeanVarPoint :=
  match optimizer_class target_mean with
  | some optimal_var => acc ++ [MeanVarPoint.mk target_mean optimal_var]
  | none => acc

/-- `_compute_efficient_frontier_path`: build the target-mean space from
the distribution, then run the frontier loop over it in order. -/
def computeEfficientFrontierPath (optimizer_class : OptimizerClass)
    (mean_var_dist : List MeanVarPoint) : Except SimError (List MeanVarPoint) :=
  match targetMeansSpace mean_var_dist with
  | .error e => .error e
  | .ok target_means_space => .ok (target_means_space.foldl (frontierStep optimizer_class) [])

/-- A module environment for `importlib.import_module`/`getattr`: importable
module names, each carrying its attribute table of optimizer classes. -/
def ModuleEnv : Type := List (String × List (String × OptimizerClass))

/-- `importlib.import_module`: look the module up in the environment. -/
def importModule (env : ModuleEnv) (module_name : String) :
    Option (List (String × OptimizerClass)) :=
  (env.find? (fun m => m.1 == module_name)).map Prod.snd

/-- Helper for `rsplitDot`: splits a character list at its last dot into
the parts before and after it; `none` when no dot occurs. -/
def rsplitDotAux : List Char → Option (List Char × List Char)
  | [] => none
  | c :: cs =>
    match rsplitDotAux cs with
    | some (m, rest) => some (c :: m, rest)
    | none => if c = '.' then some ([], cs) else none

/-- Python's `full_class_name.rsplit(".", 1)` followed by unpacking into
two names: splits at the last dot, None when the string has no dot (the
unpack of the one-element list then raises ValueError). -/
def rsplitDot (s : String) : Option (String × String) :=
  (rsplitDotAux s.data).map (fun mc => (String.mk mc.1, String.mk mc.2))

/-- `_load_portfolio_optimizer_class`: rsplit the fully qualified name,
then import the module and getattr the class.  A None name raises
AttributeError at the rsplit call; a dotless name raises ValueError at the
unpack; a missing module or attribute raises at import/getattr. -/
def loadPortfolioOptimizerClass (env : ModuleEnv)
    (full_class_name : Option String) : Except SimError OptimizerClass :=
  match full_class_name with
  | none => .error .attributeErrorNone
  | some s =>
    match rsplitDot s with
    | none => .error .valueErrorUnpack
    | some (module_name, class_name) =>
      match importModule env module_name with
      | none => .error (.moduleNotFoundError module_name)
      | some attrs =>
        match attrs.find? (fun a => a.1 == class_name) with
        | none => .error (.attributeErrorGetattr module_name class_name)
        | some a => .ok a.2

/-- The orchestrator object after a successful construction: the stored
result tables `_mean_var_dist` and `_efficient_frontier`. -/
structure PortfolioSimulation where
  portfolio_assets : PortfolioAssets
  mean_var_dist : List MeanVarPoint
  eff_frontier : List MeanVarPoint

/-- The `mean_variance_distribution` property: returns the stored table. -/
def PortfolioSimulation.mean_variance_distribution (o : PortfolioSimulation) :
    List MeanVarPoint :=
  o.mean_var_dist

/-- The `efficient_frontier` property: returns the stored table. -/
def PortfolioSimulation.efficient_frontier (o : PortfolioSimulation) :
    List MeanVarPoint :=
  o.eff_frontier

/-- `__init__`: resolve the optimizer class, then simulate the
mean-variance distribution, then compute the efficient frontier — in that
order, eagerly, each step aborting construction on error.  The second
component records every mean-variance point generated during the call,
also on aborted constructions (empty when the abort precedes the
simulation). -/
def construct (env : ModuleEnv) (portfolio_assets : PortfolioAssets)
    (ri : List (List ℕ)) (portfolio_optimizer_full_class_name : Option String := none) :
    Except SimError PortfolioSimulation × List MeanVarPoint :=
  match loadPortfolioOptimizerClass env portfolio_optimizer_full_class_name with
  | .error e => (.error e, [])
  | .ok optimizer_class =>
    let weights_batch := generateRandomAssetWeightDistribution ri
    let mean_var_dist :=
      (simulateExpectedReturnVolatilityDistribution portfolio_assets weights_batch).2
    match computeEfficientFrontierPath optimizer_class mean_var_dist with
    | .error e => (.error e, mean_var_dist)
    | .ok eff =>
      (.ok (PortfolioSimulation.mk portfolio_assets mean_var_dist eff), mean_var_dist)

/-! ## Concrete instances used to exercise the theorems -/

/-- A concrete two-asset provider: expected return and volatility are
weighted sums of fixed per-asset figures. -/
def providerW : PortfolioAssets :=
  PortfolioAssets.mk ["AAA", "BBB"] [0, 0]
    (fun w => (List.zipWith (fun a b => a * b) w [(1 : ℚ)/10, (2 : ℚ)/10]).sum)
    (fun w => (List.zipWith (fun a b => a * b) w [(5 : ℚ)/100, (8 : ℚ)/100]).sum)

/-- A concrete optimizer whose optimal variance at target t is t * t. -/
def clsW : OptimizerClass := fun t => some (t * t)

/-- A concrete module environment: module `mod` defines the optimizer
class `Opt`, which behaves like `clsW`. -/
def envW : ModuleEnv := [("mod", [("Opt", fun t => some (t * t))])]

/-- A concrete two-point mean-variance distribution. -/
def distW : List MeanVarPoint := [MeanVarPoint.mk 0 1, MeanVarPoint.mk 2 1]

/-- A concrete one-point mean-variance distribution whose Expected Return
column has equal minimum and maximum. -/
def distW1 : List MeanVarPoint := [MeanVarPoint.mk 2 1]

/-- The orchestrator object produced by constructing from `envW`,
`providerW` and the draw matrix `[[1, 3]]` with class name `mod.Opt`. -/
def oW : PortfolioSimulation :=
  PortfolioSimulation.mk providerW [MeanVarPoint.mk (7/40) (29/400)]
    (List.replicate 100 (MeanVarPoint.mk (7/40) (49/1600)))

/-- The mean-variance points generated during that construction. -/
def trW : List MeanVarPoint := [MeanVarPoint.mk (7/40) (29/400)]

/-! ## Helper lemmas about the simulation loop -/

lemma foldl_simulateStep (p : PortfolioAssets) (batch : List (List ℚ))
    (w : List ℚ) (acc : List MeanVarPoint) :
    (batch.foldl (simulateStep p) (w, acc)).2 =
      acc ++ batch.map (fun row => MeanVarPoint.mk (p.expected_return row) (p.volatility row)) := by
  induction batch generalizing w acc with
  | nil => simp
  | cons r rs ih => simp [simulateStep, ih]

lemma foldl_simulateStep_state (p : PortfolioAssets) (batch : List (List ℚ))
    (w : List ℚ) (acc : List MeanVarPoint) :
    (batch.foldl (simulateStep p) (w, acc)).1 = batch.getLastD w := by
  induction batch generalizing w acc with
  | nil => rfl
  | cons r rs ih =>
    rw [List.foldl_cons, List.getLastD_cons]
    exact ih r _

lemma simulate_eq_map (p : PortfolioAssets) (batch : List (List ℚ)) :
    (simulateExpectedReturnVolatilityDistribution p batch).2 =
      batch.map (fun row => MeanVarPoint.mk (p.expected_return row) (p.volatility row)) := by
  simpa using foldl_simulateStep p batch p.weights []

/-! ## Helper lemmas about row normalization -/

lemma sum_map_cast_mul (row : List ℕ) (c : ℚ) :
    (row.map (fun (d : ℕ) => (d : ℚ) * c)).sum = (row.sum : ℚ) * c := by
  induction row with
  | nil => simp
  | cons d ds ih =>
    simp only [List.map_cons, List.sum_cons, ih, List.sum_cons, Nat.cast_add]
    ring

lemma sum_normalizeRow (row : List ℕ) (h : row.sum ≠ 0) :
    (normalizeRow row).sum = 1 := by
  have hcast : ((row.sum : ℚ)) ≠ 0 := by exact_mod_cast h
  have h1 : (normalizeRow row).sum = (row.sum : ℚ) * norm_factor row :=
    sum_map_cast_mul row (norm_factor row)
  rw [h1, norm_factor, mul_one_div, div_self hcast]

lemma nonneg_normalizeRow (row : List ℕ) :
    ∀ w ∈ normalizeRow row, 0 ≤ w := by
  intro w hw
  rcases List.mem_map.1 hw with ⟨d, _, rfl⟩
  have h1 : (0 : ℚ) ≤ norm_factor row := by
    rw [norm_factor]
    exact one_div_nonneg.mpr (Nat.cast_nonneg _)
  exact mul_nonneg (Nat.cast_nonneg d) h1

/-! ## Helper lemmas about the column reductions -/

lemma foldl_min_le (xs : List ℚ) (a : ℚ) :
    xs.foldl min a ≤ a ∧ ∀ b ∈ xs, xs.foldl min a ≤ b := by
  induction xs generalizing a with
  | nil => exact ⟨le_refl a, by simp⟩
  | cons x xs ih =>
    obtain ⟨h1, h2⟩ := ih (min a x)
    refine ⟨le_trans h1 (min_le_left a x), ?_⟩
    intro b hb
    rcases List.mem_cons.1 hb with rfl | hb
    · exact le_trans h1 (min_le_right a b)
    · exact h2 b hb

lemma foldl_min_mem (xs : List ℚ) (a : ℚ) :
    xs.foldl min a = a ∨ xs.foldl min a ∈ xs := by
  induction xs generalizing a with
  | nil => exact Or.inl rfl
  | cons x xs ih =>
    rw [List.foldl_cons]
    rcases ih (min a x) with h | h
    · rw [h]
      rcases le_total a x with hax | hxa
      · exact Or.inl (min_eq_left hax)
      · exact Or.inr (List.mem_cons.2 (Or.inl (min_eq_right hxa)))
    · exact Or.inr (List.mem_cons_of_mem x h)

lemma foldl_max_ge (xs : List ℚ) (a : ℚ) :
    a ≤ xs.foldl max a ∧ ∀ b ∈ xs, b ≤ xs.foldl max a := by
  induction xs generalizing a with
  | nil => exact ⟨le_refl a, by simp⟩
  | cons x xs ih =>
    obtain ⟨h1, h2⟩ := ih (max a x)
    refine ⟨le_trans (le_max_left a x) h1, ?_⟩
    intro b hb
    rcases List.mem_cons.1 hb with rfl | hb
    · exact le_trans (le_max_right a b) h1
    · exact h2 b hb

lemma foldl_max_mem (xs : List ℚ) (a : ℚ) :
    xs.foldl max a = a ∨ xs.foldl max a ∈ xs := by
  induction xs generalizing a with
  | nil => exact Or.inl rfl
  | cons x xs ih =>
    rw [List.foldl_cons]
    rcases ih (max a x) with h | h
    · rw [h]
      rcases le_total a x with hax | hxa
      · exact Or.inr (List.mem_cons.2 (Or.inl (max_eq_right hax)))
      · exact Or.inl (max_eq_left hxa)
    · exact Or.inr (List.mem_cons_of_mem x h)

lemma npMin_spec (l : List ℚ) (h : l ≠ []) :
    ∃ mn, npMin l = .ok mn ∧ mn ∈ l ∧ ∀ r ∈ l, mn ≤ r := by
  cases l with
  | nil => exact absurd rfl h
  | cons x xs =>
    refine ⟨xs.foldl min x, rfl, ?_, ?_⟩
    · rcases foldl_min_mem xs x with h1 | h1
      · rw [h1]; exact List.mem_cons_self x xs
      · exact List.mem_cons_of_mem x h1
    · intro r hr
      rcases List.mem_cons.1 hr with rfl | hr
      · exact (foldl_min_le xs r).1
      · exact (foldl_min_le xs x).2 r hr

lemma npMax_spec (l : List ℚ) (h : l ≠ []) :
    ∃ mx, npMax l = .ok mx ∧ mx ∈ l ∧ ∀ r ∈ l, r ≤ mx := by
  cases l with
  | nil => exact absurd rfl h
  | cons x xs =>
    refine ⟨xs.foldl max x, rfl, ?_, ?_⟩
    · rcases foldl_max_mem xs x with h1 | h1
      · rw [h1]; exact List.mem_cons_self x xs
      · exact List.mem_cons_of_mem x h1
    · intro r hr
      rcases List.mem_cons.1 hr with rfl | hr
      · exact (foldl_max_ge xs r).1
      · exact (foldl_max_ge xs x).2 r hr

/-! ## Helper lemmas about linspace -/

lemma linspace_length (a b : ℚ) (n : ℕ) : (linspace a b n).length = n := by
  simp [linspace]

lemma linspace_getElem? (a b : ℚ) (n i : ℕ) (h : i < n) :
    (linspace a b n)[i]? = some (a + (b - a) * (i : ℚ) / ((n : ℚ) - 1)) := by
  simp [linspace, List.getElem?_map, List.getElem?_range, h]

lemma linspace_self (r : ℚ) (n : ℕ) : linspace r r n = List.replicate n r := by
  rw [linspace]
  calc (List.range n).map
        (fun (i : ℕ) => r + (r - r) * (i : ℚ) / ((n : ℚ) - 1))
      = (List.range n).map (fun _ => r) := by
        refine List.map_congr_left (fun i _ => ?_)
        rw [sub_self, zero_mul, zero_div, add_zero]
    _ = List.replicate n r := by
        rw [List.map_const', List.length_range]

lemma linspace_pairwise_le (a b : ℚ) (n : ℕ) (hab : a ≤ b) (hn : 2 ≤ n) :
    List.Pairwise (fun x y => x ≤ y) (linspace a b n) := by
  rw [linspace]
  refine List.Pairwise.map _ ?_ (List.pairwise_lt_range n)
  intro i j hij
  have hd : (0 : ℚ) < (n : ℚ) - 1 := by
    have h2 : (2 : ℚ) ≤ (n : ℚ) := by exact_mod_cast hn
    linarith
  have hba : (0 : ℚ) ≤ b - a := sub_nonneg.2 hab
  have hij2 : (i : ℚ) ≤ (j : ℚ) := by exact_mod_cast le_of_lt hij
  have hnum : (b - a) * (i : ℚ) ≤ (b - a) * (j : ℚ) :=
    mul_le_mul_of_nonneg_left hij2 hba
  have hdiv : (b - a) * (i : ℚ) / ((n : ℚ) - 1) ≤ (b - a) * (j : ℚ) / ((n : ℚ) - 1) := by
    gcongr
  linarith

/-! ## Helper lemmas about the frontier sweep -/

lemma colExpectedReturn_ne_nil (dist : List MeanVarPoint) (h : dist ≠ []) :
    colExpectedReturn dist ≠ [] := by
  simpa [colExpectedReturn] using h

lemma targetMeansSpace_eq (dist : List MeanVarPoint) (mn mx : ℚ)
    (h1 : npMin (colExpectedReturn dist) = .ok mn)
    (h2 : npMax (colExpectedReturn dist) = .ok mx) :
    targetMeansSpace dist = .ok (linspace mn mx N_SIMULATION_EFFICIENT_FRONTIER) := by
  rw [targetMeansSpace, h1, h2]

lemma foldl_frontierStep (cls : OptimizerClass) (ts : List ℚ) (acc : List MeanVarPoint) :
    ts.foldl (frontierStep cls) acc =
      acc ++ ts.filterMap (fun t => (cls t).map (fun v => MeanVarPoint.mk t v)) := by
  induction ts generalizing acc with
  | nil => simp
  | cons t ts ih =>
    rw [List.foldl_cons, ih, List.filterMap_cons]
    cases h : cls t with
    | none => simp [frontierStep, h]
    | some v => simp [frontierStep, h]

lemma col_filterMap (cls : OptimizerClass) (ts : List ℚ) :
    colExpectedReturn (ts.filterMap (fun t => (cls t).map (fun v => MeanVarPoint.mk t v))) =
      ts.filter (fun t => (cls t).isSome) := by
  induction ts with
  | nil => rfl
  | cons t ts ih =>
    rw [List.filterMap_cons, List.filter_cons]
    cases h : cls t with
    | none => simpa [h] using ih
    | some v =>
      simp only [h, Option.map_some', Option.isSome_some, if_true]
      simpa [colExpectedReturn] using ih

lemma filterMap_none_of_all_none (cls : OptimizerClass) (ts : List ℚ)
    (h : ∀ t, cls t = none) :
    ts.filterMap (fun t => (cls t).map (fun v => MeanVarPoint.mk t v)) = [] := by
  induction ts with
  | nil => rfl
  | cons t ts ih => rw [List.filterMap_cons, h t]; exact ih

lemma filterMap_some_replicate (n : ℕ) (t v : ℚ) (cls : OptimizerClass)
    (h : cls t = some v) :
    (List.replicate n t).filterMap (fun x => (cls x).map (fun w => MeanVarPoint.mk x w)) =
      List.replicate n (MeanVarPoint.mk t v) := by
  induction n with
  | zero => rfl
  | succ n ih =>
    rw [List.replicate_succ, List.filterMap_cons, h, List.replicate_succ, ← ih]
    rfl

/-! ## Claim theorems: sampler and simulator -/

/-- C1: the distribution simulator produces exactly `_N_SIMULATION_MEAN_VAR`
= 2000 mean-variance points, one per sampled weight row in row order: the
i-th point is obtained by assigning row i as the provider's weights and
then reading `expected_return` and `volatility` at those weights; the
provider's weights slot afterwards holds the last assigned row. -/
theorem simulation_produces_points_in_row_order (p : PortfolioAssets)
    (ri : List (List ℕ)) (n_assets : ℕ) (h : DrawsWF ri n_assets) :
    ((simulateExpectedReturnVolatilityDistribution p
        (generateRandomAssetWeightDistribution ri)).2).length = N_SIMULATION_MEAN_VAR ∧
    (∀ i : ℕ,
      ((simulateExpectedReturnVolatilityDistribution p
          (generateRandomAssetWeightDistribution ri)).2)[i]? =
        ((generateRandomAssetWeightDistribution ri)[i]?).map
          (fun row => MeanVarPoint.mk (p.expected_return row) (p.volatility row))) ∧
    (simulateExpectedReturnVolatilityDistribution p
        (generateRandomAssetWeightDistribution ri)).1 =
      (generateRandomAssetWeightDistribution ri).getLastD p.weights := by
  obtain ⟨hlen, -⟩ := h
  refine ⟨?_, ?_, ?_⟩
  · rw [simulate_eq_map, List.length_map, generateRandomAssetWeightDistribution,
      List.length_map, hlen]
  · intro i
    rw [simulate_eq_map, List.getElem?_map]
  · exact foldl_simulateStep_state p _ p.weights []

/-- C2: every generated weight row whose raw integer draws have a nonzero
sum is the draw row divided by its sum, so it sums to exactly 1 and all of
its entries are non-negative. -/
theorem generated_weight_rows_sum_to_one (ri : List (List ℕ)) (i : ℕ) (row : List ℕ)
    (h1 : ri[i]? = some row) (h2 : row.sum ≠ 0) :
    (generateRandomAssetWeightDistribution ri)[i]? = some (normalizeRow row) ∧
    (normalizeRow row).sum = 1 ∧
    ∀ w ∈ normalizeRow row, 0 ≤ w := by
  refine ⟨?_, sum_normalizeRow row h2, nonneg_normalizeRow row⟩
  simp [generateRandomAssetWeightDistribution, h1]

/-- C8: the sampler has no zero-sum guard: for a draw row summing to 0 it
still emits the normalized row (no re-draw, no failure branch, same
length), the normalization factor is literally a division by zero, and the
emitted row does not satisfy the sum-to-one invariant (under the rational
junk-value semantics of division by zero it sums to 0). -/
theorem zero_sum_row_division_unguarded (ri : List (List ℕ)) (i : ℕ) (row : List ℕ)
    (h1 : ri[i]? = some row) (h2 : row.sum = 0) :
    (generateRandomAssetWeightDistribution ri)[i]? = some (normalizeRow row) ∧
    norm_factor row = 1 / 0 ∧
    (normalizeRow row).length = row.length ∧
    (normalizeRow row).sum ≠ 1 := by
  refine ⟨?_, ?_, ?_, ?_⟩
  · simp [generateRandomAssetWeightDistribution, h1]
  · rw [norm_factor, h2, Nat.cast_zero]
  · simp [normalizeRow]
  · have hs : (normalizeRow row).sum = (row.sum : ℚ) * norm_factor row :=
      sum_map_cast_mul row (norm_factor row)
    rw [hs, h2, Nat.cast_zero, zero_mul]
    norm_num

/-! ## Claim theorems: frontier sweep -/

/-- C3: the frontier sweep computes `min_return` and `max_return` as the
minimum and maximum of the Expected Return column of the full distribution
and generates exactly 100 evenly spaced targets spanning the closed range
from the minimum to the maximum, in ascending order: the i-th target is
`mn + (mx - mn) * i / 99`, the first is the minimum, the last is the
maximum. -/
theorem frontier_targets_min_max_linspace (dist : List MeanVarPoint) (h : dist ≠ []) :
    ∃ mn mx,
      npMin (colExpectedReturn dist) = .ok mn ∧
      npMax (colExpectedReturn dist) = .ok mx ∧
      mn ∈ colExpectedReturn dist ∧ mx ∈ colExpectedReturn dist ∧
      (∀ r ∈ colExpectedReturn dist, mn ≤ r ∧ r ≤ mx) ∧
      targetMeansSpace dist = .ok (linspace mn mx N_SIMULATION_EFFICIENT_FRONTIER) ∧
      (linspace mn mx N_SIMULATION_EFFICIENT_FRONTIER).length =
        N_SIMULATION_EFFICIENT_FRONTIER ∧
      (linspace mn mx N_SIMULATION_EFFICIENT_FRONTIER)[0]? = some mn ∧
      (linspace mn mx N_SIMULATION_EFFICIENT_FRONTIER)[99]? = some mx ∧
      (∀ i : ℕ, i < N_SIMULATION_EFFICIENT_FRONTIER →
        (linspace mn mx N_SIMULATION_EFFICIENT_FRONTIER)[i]? =
          some (mn + (mx - mn) * (i : ℚ) / 99)) ∧
      List.Pairwise (fun x y => x ≤ y) (linspace mn mx N_SIMULATION_EFFICIENT_FRONTIER) := by
  have hc := colExpectedReturn_ne_nil dist h
  obtain ⟨mn, hmn, hmnmem, hmnle⟩ := npMin_spec _ hc
  obtain ⟨mx, hmx, hmxmem, hmxge⟩ := npMax_spec _ hc
  have hle : mn ≤ mx := hmnle mx hmxmem
  refine ⟨mn, mx, hmn, hmx, hmnmem, hmxmem, fun r hr => ⟨hmnle r hr, hmxge r hr⟩,
    targetMeansSpace_eq dist mn mx hmn hmx, linspace_length mn mx _, ?_, ?_, ?_,
    linspace_pairwise_le mn mx _ hle (by norm_num [N_SIMULATION_EFFICIENT_FRONTIER])⟩
  · rw [linspace_getElem? mn mx _ 0 (by norm_num [N_SIMULATION_EFFICIENT_FRONTIER])]
    norm_num
  · rw [linspace_getElem? mn mx _ 99 (by norm_num [N_SIMULATION_EFFICIENT_FRONTIER])]
    norm_num [N_SIMULATION_EFFICIENT_FRONTIER]
  · intro i hi
    rw [linspace_getElem? mn mx _ i hi]
    norm_num [N_SIMULATION_EFFICIENT_FRONTIER]

/-- C4: for a nonempty distribution the sweep succeeds for every optimizer:
each target with a present `optimal_variance` contributes the point
(target, optimal variance), absent values are skipped silently, so the
frontier is exactly the feasible targets in ascending order, has length at
most 100, and an optimizer that always reports absence yields an empty
frontier. -/
theorem frontier_keeps_exactly_feasible_targets (cls : OptimizerClass)
    (dist : List MeanVarPoint) (h : dist ≠ []) :
    ∃ ts ef,
      targetMeansSpace dist = .ok ts ∧
      computeEfficientFrontierPath cls dist = .ok ef ∧
      ef = ts.filterMap (fun t => (cls t).map (fun v => MeanVarPoint.mk t v)) ∧
      colExpectedReturn ef = ts.filter (fun t => (cls t).isSome) ∧
      ef.length ≤ N_SIMULATION_EFFICIENT_FRONTIER ∧
      List.Pairwise (fun x y => x ≤ y) (colExpectedReturn ef) ∧
      ((∀ t, cls t = none) → ef = []) := by
  have hc := colExpectedReturn_ne_nil dist h
  obtain ⟨mn, hmn, hmnmem, hmnle⟩ := npMin_spec _ hc
  obtain ⟨mx, hmx, hmxmem, hmxge⟩ := npMax_spec _ hc
  have hts := targetMeansSpace_eq dist mn mx hmn hmx
  refine ⟨linspace mn mx N_SIMULATION_EFFICIENT_FRONTIER, _, hts, ?_, rfl,
    col_filterMap cls _, ?_, ?_, filterMap_none_of_all_none cls _⟩
  · rw [computeEfficientFrontierPath, hts]
    dsimp only
    rw [foldl_frontierStep, List.nil_append]
  · calc ((linspace mn mx N_SIMULATION_EFFICIENT_FRONTIER).filterMap
        (fun t => (cls t).map (fun v => MeanVarPoint.mk t v))).length
        ≤ (linspace mn mx N_SIMULATION_EFFICIENT_FRONTIER).length :=
          List.length_filterMap_le _ _
      _ = N_SIMULATION_EFFICIENT_FRONTIER := linspace_length mn mx _
  · rw [col_filterMap]
    exact (linspace_pairwise_le mn mx _ (hmnle mx hmxmem)
      (by norm_num [N_SIMULATION_EFFICIENT_FRONTIER])).sublist (List.filter_sublist _)

/-- C6: invoking the frontier sweep on an empty mean-variance distribution
fails with the empty-reduction error: the target-return range cannot be
computed. -/
theorem empty_distribution_frontier_error (cls : OptimizerClass) :
    computeEfficientFrontierPath cls [] = .error .valueErrorEmptyReduction := rfl

/-- C9: when the Expected Return column's minimum equals its maximum, the
target space is still defined — the divisor of the linspace step is 99, not
the zero range width — and consists of the single value repeated 100
times. -/
theorem degenerate_range_targets_repeat_single_value (dist : List MeanVarPoint) (r : ℚ)
    (h1 : npMin (colExpectedReturn dist) = .ok r)
    (h2 : npMax (colExpectedReturn dist) = .ok r) :
    targetMeansSpace dist =
      .ok (List.replicate N_SIMULATION_EFFICIENT_FRONTIER r) ∧
    ((N_SIMULATION_EFFICIENT_FRONTIER : ℚ) - 1 ≠ 0) := by
  refine ⟨?_, by norm_num [N_SIMULATION_EFFICIENT_FRONTIER]⟩
  rw [targetMeansSpace_eq dist r r h1 h2, linspace_self]

/-! ## Claim theorems: orchestrator construction -/

/-- C5: when the optimizer type name cannot be resolved (whatever the
exception: dotless name, missing module, or missing class attribute),
construction returns exactly that error and the simulation never runs — no
mean-variance point is generated and no result object exists. -/
theorem unresolvable_optimizer_name_aborts_construction (env : ModuleEnv)
    (p : PortfolioAssets) (ri : List (List ℕ)) (name : String) (e : SimError)
    (h : loadPortfolioOptimizerClass env (some name) = .error e) :
    construct env p ri (some name) = (.error e, []) := by
  simp only [construct, h]

/-- C10: constructing with the parameter's declared default value (None)
always raises at the unconditional `rsplit` call on the name, before any
simulation point is generated, for every environment, provider and draw
matrix — the declared default is never usable. -/
theorem default_none_optimizer_name_unusable (env : ModuleEnv)
    (p : PortfolioAssets) (ri : List (List ℕ)) :
    construct env p ri = (.error .attributeErrorNone, []) := rfl

/-- C7: on a successful construction both result tables are fully
determined by the constructor inputs — the distribution is the one
simulated from the generated weights, the frontier is the sweep of that
same stored distribution — and the two accessors return exactly those
stored tables. -/
theorem accessors_return_eagerly_computed_results (env : ModuleEnv)
    (p : PortfolioAssets) (ri : List (List ℕ)) (name : Option String)
    (o : PortfolioSimulation) (tr : List MeanVarPoint)
    (h : construct env p ri name = (.ok o, tr)) :
    ∃ cls, loadPortfolioOptimizerClass env name = .ok cls ∧
      o.portfolio_assets = p ∧
      o.mean_variance_distribution =
        (simulateExpectedReturnVolatilityDistribution p
          (generateRandomAssetWeightDistribution ri)).2 ∧
      computeEfficientFrontierPath cls o.mean_variance_distribution =
        .ok o.efficient_frontier ∧
      o.mean_variance_distribution = tr ∧
      o.mean_variance_distribution = o.mean_var_dist ∧
      o.efficient_frontier = o.eff_frontier := by
  cases hload : loadPortfolioOptimizerClass env name with
  | error e =>
    simp only [construct, hload] at h
    simp at h
  | ok cls =>
    simp only [construct, hload] at h
    refine ⟨cls, rfl, ?_⟩
    cases hef : computeEfficientFrontierPath cls
        (simulateExpectedReturnVolatilityDistribution p
          (generateRandomAssetWeightDistribution ri)).2 with
    | error e =>
      rw [hef] at h
      simp at h
    | ok ef =>
      rw [hef] at h
      simp only [Prod.mk.injEq, Except.ok.injEq] at h
      obtain ⟨rfl, rfl⟩ := h
      exact ⟨rfl, rfl, hef, rfl, rfl, rfl⟩

/-! ## Witness instances -/

/-- Witness for C1 at a concrete 2000-row draw matrix. -/
theorem simulation_produces_points_in_row_order_witness :
    DrawsWF (List.replicate 2000 [1, 3]) 2 ∧
    ((simulateExpectedReturnVolatilityDistribution providerW
        (generateRandomAssetWeightDistribution (List.replicate 2000 [1, 3]))).2).length =
      N_SIMULATION_MEAN_VAR := by
  have hwf : DrawsWF (List.replicate 2000 [1, 3]) 2 := by
    refine ⟨by rw [List.length_replicate]; rfl, ?_⟩
    intro row hrow
    rw [List.eq_of_mem_replicate hrow]
    exact ⟨rfl, by decide⟩
  exact ⟨hwf, (simulation_produces_points_in_row_order providerW _ 2 hwf).1⟩

/-- Witness for C2 at the draw row [1, 3]. -/
theorem generated_weight_rows_sum_to_one_witness :
    (([[1, 3]] : List (List ℕ))[0]? = some [1, 3]) ∧ ([1, 3] : List ℕ).sum ≠ 0 ∧
    ((generateRandomAssetWeightDistribution [[1, 3]])[0]? = some (normalizeRow [1, 3]) ∧
      (normalizeRow [1, 3]).sum = 1 ∧
      ∀ w ∈ normalizeRow [1, 3], 0 ≤ w) :=
  ⟨rfl, by decide,
    generated_weight_rows_sum_to_one [[1, 3]] 0 [1, 3] rfl (by decide)⟩

/-- Witness for C3 at a concrete two-point distribution. -/
theorem frontier_targets_min_max_linspace_witness :
    distW ≠ [] ∧
    (∃ mn mx,
      npMin (colExpectedReturn distW) = .ok mn ∧
      npMax (colExpectedReturn distW) = .ok mx ∧
      mn ∈ colExpectedReturn distW ∧ mx ∈ colExpectedReturn distW ∧
      (∀ r ∈ colExpectedReturn distW, mn ≤ r ∧ r ≤ mx) ∧
      targetMeansSpace distW = .ok (linspace mn mx N_SIMULATION_EFFICIENT_FRONTIER) ∧
      (linspace mn mx N_SIMULATION_EFFICIENT_FRONTIER).length =
        N_SIMULATION_EFFICIENT_FRONTIER ∧
      (linspace mn mx N_SIMULATION_EFFICIENT_FRONTIER)[0]? = some mn ∧
      (linspace mn mx N_SIMULATION_EFFICIENT_FRONTIER)[99]? = some mx ∧
      (∀ i : ℕ, i < N_SIMULATION_EFFICIENT_FRONTIER →
        (linspace mn mx N_SIMULATION_EFFICIENT_FRONTIER)[i]? =
          some (mn + (mx - mn) * (i : ℚ) / 99)) ∧
      List.Pairwise (fun x y => x ≤ y) (linspace mn mx N_SIMULATION_EFFICIENT_FRONTIER)) :=
  ⟨by simp [distW], frontier_targets_min_max_linspace distW (by simp [distW])⟩

/-- Witness for C4 at a concrete distribution and optimizer. -/
theorem frontier_keeps_exactly_feasible_targets_witness :
    distW ≠ [] ∧
    (∃ ts ef,
      targetMeansSpace distW = .ok ts ∧
      computeEfficientFrontierPath clsW distW = .ok ef ∧
      ef = ts.filterMap (fun t => (clsW t).map (fun v => MeanVarPoint.mk t v)) ∧
      colExpectedReturn ef = ts.filter (fun t => (clsW t).isSome) ∧
      ef.length ≤ N_SIMULATION_EFFICIENT_FRONTIER ∧
      List.Pairwise (fun x y => x ≤ y) (colExpectedReturn ef) ∧
      ((∀ t, clsW t = none) → ef = [])) :=
  ⟨by simp [distW], frontier_keeps_exactly_feasible_targets clsW distW (by simp [distW])⟩

/-- Witness for C5 at the unresolvable name of the specification scenario. -/
theorem unresolvable_optimizer_name_aborts_construction_witness :
    loadPortfolioOptimizerClass envW (some "nonexistent.module.Klass") =
      .error (.moduleNotFoundError "nonexistent.module") ∧
    construct envW providerW [[1, 3]] (some "nonexistent.module.Klass") =
      (.error (.moduleNotFoundError "nonexistent.module"), []) :=
  ⟨rfl, unresolvable_optimizer_name_aborts_construction envW providerW [[1, 3]]
    "nonexistent.module.Klass" (.moduleNotFoundError "nonexistent.module") rfl⟩

lemma normalizeRow_one_three : normalizeRow [1, 3] = [1/4, 3/4] := by
  norm_num [normalizeRow, norm_factor]

lemma construct_envW_eval :
    construct envW providerW [[1, 3]] (some "mod.Opt") = (.ok oW, trW) := by
  have hload : loadPortfolioOptimizerClass envW (some "mod.Opt") = .ok clsW := rfl
  have hdist : (simulateExpectedReturnVolatilityDistribution providerW
      (generateRandomAssetWeightDistribution [[1, 3]])).2 = trW := by
    rw [simulate_eq_map]
    simp only [generateRandomAssetWeightDistribution, List.map_cons, List.map_nil,
      normalizeRow_one_three]
    simp only [providerW, trW, List.zipWith_cons_cons, List.zipWith_nil_right,
      List.sum_cons, List.sum_nil, MeanVarPoint.mk.injEq, List.cons.injEq,
      and_true, List.nil_eq]
    norm_num
  have hcls : clsW ((7 : ℚ)/40) = some (49/1600) := by
    simp only [clsW, Option.some.injEq]
    norm_num
  have hts : targetMeansSpace trW = .ok (List.replicate 100 ((7 : ℚ)/40)) := by
    have h1 : npMin (colExpectedReturn trW) = .ok ((7 : ℚ)/40) := rfl
    have h2 : npMax (colExpectedReturn trW) = .ok ((7 : ℚ)/40) := rfl
    rw [targetMeansSpace_eq trW _ _ h1 h2, linspace_self]
    rfl
  have hfront : computeEfficientFrontierPath clsW trW =
      .ok (List.replicate 100 (MeanVarPoint.mk ((7 : ℚ)/40) ((49 : ℚ)/1600))) := by
    rw [computeEfficientFrontierPath, hts]
    dsimp only
    rw [foldl_frontierStep, List.nil_append, filterMap_some_replicate 100 _ _ clsW hcls]
  simp only [construct, hload]
  rw [hdist, hfront]
  rfl

/-- Witness for C7 at a concrete successful construction. -/
theorem accessors_return_eagerly_computed_results_witness :
    construct envW providerW [[1, 3]] (some "mod.Opt") = (.ok oW, trW) ∧
    (∃ cls, loadPortfolioOptimizerClass envW (some "mod.Opt") = .ok cls ∧
      oW.portfolio_assets = providerW ∧
      oW.mean_variance_distribution =
        (simulateExpectedReturnVolatilityDistribution providerW
          (generateRandomAssetWeightDistribution [[1, 3]])).2 ∧
      computeEfficientFrontierPath cls oW.mean_variance_distribution =
        .ok oW.efficient_frontier ∧
      oW.mean_variance_distribution = trW ∧
      oW.mean_variance_distribution = oW.mean_var_dist ∧
      oW.efficient_frontier = oW.eff_frontier) :=
  ⟨construct_envW_eval,
    accessors_return_eagerly_computed_results envW providerW [[1, 3]] (some "mod.Opt")
      oW trW construct_envW_eval⟩

/-- Witness for C8 at the all-zero draw row. -/
theorem zero_sum_row_division_unguarded_witness :
    (([[0, 0]] : List (List ℕ))[0]? = some [0, 0]) ∧ ([0, 0] : List ℕ).sum = 0 ∧
    ((generateRandomAssetWeightDistribution [[0, 0]])[0]? = some (normalizeRow [0, 0]) ∧
      norm_factor [0, 0] = 1 / 0 ∧
      (normalizeRow [0, 0]).length = ([0, 0] : List ℕ).length ∧
      (normalizeRow [0, 0]).sum ≠ 1) :=
  ⟨rfl, rfl, zero_sum_row_division_unguarded [[0, 0]] 0 [0, 0] rfl rfl⟩

/-- Witness for C9 at a distribution with equal minimum and maximum. -/
theorem degenerate_range_targets_repeat_single_value_witness :
    npMin (colExpectedReturn distW1) = .ok 2 ∧
    npMax (colExpectedReturn distW1) = .ok 2 ∧
    (targetMeansSpace distW1 = .ok (List.replicate N_SIMULATION_EFFICIENT_FRONTIER 2) ∧
      ((N_SIMULATION_EFFICIENT_FRONTIER : ℚ) - 1 ≠ 0)) :=
  ⟨rfl, rfl, degenerate_range_targets_repeat_single_value distW1 2 rfl rfl⟩

end PortfolioSim
